import Mathlib

/-!
Shallow embedding of vim-autosync's core (src/python3/autosync_core.py).

The Python module keeps four pieces of global state that the claims are
about: the in-flight operation set `_active_operations`, the in-memory
last-pull-time cache `_last_pull_times`, the sidecar timestamp files
(one `.last_pull_timestamp` file per managed directory), and the
thread-to-main-thread message queue `_message_queue`.  We model them as
one explicit state record.  The git backend (GitPython) is an opaque
collaborator: each operation's outcome (dirtiness, exceptions raised by
add/commit/pull/push, file-write success, current time) is supplied by
an environment record, and the git calls actually issued are returned
as a trace.  Timestamps are modelled as integers (the ordering and
subtraction used by the code carry over unchanged).
-/

namespace Autosync

/-- A queued message, mirroring the `(message, error)` pairs put on
`_message_queue`.  The deferred-reload marker is the literal pair
`("SCHEDULE_RELOAD", false)` exactly as in `_async_pull`. -/
abbrev Msg := String × Bool

/-- An exception raised by the git backend: GitPython's
`GitCommandError` (carrying its message) or any other exception. -/
inductive Exc where
  | git (msg : String)
  | other (msg : String)
deriving Repr, DecidableEq

/-- A call issued to the git backend, recorded in the trace. -/
inductive GitCall where
  | stageAll
  | commitAll (msg : String)
  | pull
  | stagePath (p : String)
  | commit (msg : String)
  | push
deriving Repr, DecidableEq

/-- The module-level mutable state of autosync_core. -/
structure SyncState where
  /-- `_active_operations`: the set of in-flight operation keys
  (represented as a list; membership via `List.contains`). -/
  active : List String
  /-- `_last_pull_times`: directory → last-pull timestamp (association
  list; `List.lookup` reads the most recent binding, as a dict does). -/
  lastPullTimes : List (String × Int)
  /-- The `.last_pull_timestamp` sidecar files: directory → file
  content; `none` means the file does not exist. -/
  sidecarFiles : List (String × String)
  /-- `_message_queue`, FIFO: new messages are appended at the end. -/
  queue : List Msg
deriving Repr, DecidableEq

/-- Accumulator pass for `baseName`: keep the characters seen since
the last `'/'`. -/
def baseNameChars (cur : List Char) : List Char → List Char
  | [] => cur.reverse
  | c :: t => if c = '/' then baseNameChars [] t else baseNameChars (c :: cur) t

/-- `os.path.basename`: the part after the last slash. -/
def baseName (p : String) : String :=
  ⟨baseNameChars [] p.data⟩

/-- `str.lower()` (ASCII case folding, character by character; this is
exactly what `String.toLower` does). -/
def toLowerStr (s : String) : String :=
  ⟨s.data.map Char.toLower⟩

/-- Boolean substring test on character lists (`needle in hay` in
Python): the needle is a prefix of some suffix of the hay. -/
def subOf : List Char → List Char → Bool
  | n, [] => n.isEmpty
  | n, c :: t => n.isPrefixOf (c :: t) || subOf n t

/-- `needle in hay` for strings, as Python's `in` operator. -/
def containsSub (hay needle : String) : Bool :=
  subOf needle.toList hay.toList

/-- `_echo_message`: drops the message when silent mode is active,
otherwise queues/emits it.  (Both variants of `_echo_message` in the
source suppress everything — informational or error — under silent;
all background call sites pass the silent flag read on the main
thread.) -/
def echoMessage (silent : Bool) (message : String) (error : Bool) (q : List Msg) : List Msg :=
  if silent then q else q ++ [(message, error)]

/-- `tryAcquire` — the `with _lock:` block at the top of `_async_pull`
and `_async_commit_and_push`: if the key is in `_active_operations`
return false with no side effect, else insert it and return true. -/
def tryAcquire (key : String) (active : List String) : Bool × List String :=
  if active.contains key then (false, active) else (true, key :: active)

/-- Classification of a `GitCommandError` message by `_async_pull`'s
handler (lines 337-347): conflict first, then "up to date", else
generic; all tests on the lowercased message. -/
inductive PullClass where
  | conflict
  | upToDate
  | generic
deriving Repr, DecidableEq

/-- The `if/elif/else` on `error_msg.lower()` in `_async_pull`'s
`except GitCommandError` handler. -/
def classifyPull (msg : String) : PullClass :=
  let m := toLowerStr msg
  if containsSub m "merge conflict" || containsSub m "conflict" then .conflict
  else if containsSub m "up to date" then .upToDate
  else .generic

/-- The two `except` blocks of `_async_pull`: a `GitCommandError` is
classified (conflict → error message, up-to-date → debug log only,
otherwise → generic error message); any other exception → "Unexpected
error" message. -/
def pullExcQueue (silent : Bool) (repoDir : String) (e : Exc) (q : List Msg) : List Msg :=
  match e with
  | .git msg =>
    match classifyPull msg with
    | .conflict => echoMessage silent ("Merge conflict in " ++ repoDir ++ ". Please resolve manually.") true q
    | .upToDate => q
    | .generic => echoMessage silent ("Git pull failed for " ++ repoDir ++ ": " ++ msg) true q
  | .other msg => echoMessage silent ("Unexpected error during pull: " ++ msg) true q

/-- Environment for one `_async_pull` run: the backend's answers. -/
structure PullEnv where
  /-- `repo.is_dirty()` at the preflight check. -/
  isDirty : Bool
  /-- Exception raised by `repo.git.add(A=True)` inside
  `_commit_all_changes`, if any. -/
  stageAllExc : Option Exc
  /-- Exception raised by `repo.index.commit(...)` inside
  `_commit_all_changes`, if any. -/
  commitAllExc : Option Exc
  /-- Exception raised by `repo.remotes.origin.pull()`, if any. -/
  pullExc : Option Exc
  /-- Whether the sidecar-file write in `_update_last_pull_time`
  succeeds (an `IOError` there is caught and only logged). -/
  writeOk : Bool
  /-- `time.time()` when `_update_last_pull_time` runs. -/
  now : Int
deriving Repr, DecidableEq

/-- `_update_last_pull_time`: set the in-memory cache, then best-effort
write `str(current_time)` to the sidecar file. -/
def updateLastPullTime (repoDir : String) (now : Int) (writeOk : Bool) (s : SyncState) : SyncState :=
  let s1 := { s with lastPullTimes := (repoDir, now) :: s.lastPullTimes }
  if writeOk then { s1 with sidecarFiles := (repoDir, toString now) :: s1.sidecarFiles }
  else s1

/-- The fixed message `_commit_all_changes` commits with. -/
def autoCommitMsg : String := "Auto-sync: Committing changes before pull"

/-- The fetch step of `_async_pull` (from `repo.remotes.origin.pull()`
to the reload-marker enqueue, plus the `except` handlers it can reach). -/
def doPullStep (repoDir : String) (silent : Bool) (env : PullEnv) (s : SyncState) :
    SyncState × List GitCall :=
  match env.pullExc with
  | none =>
    let s1 := updateLastPullTime repoDir env.now env.writeOk s
    let s2 := { s1 with queue :=
      (if silent then s1.queue
       else echoMessage silent ("Pulled updates for " ++ baseName repoDir) false s1.queue) }
    ({ s2 with queue := s2.queue ++ [("SCHEDULE_RELOAD", false)] }, [GitCall.pull])
  | some e => ({ s with queue := pullExcQueue silent repoDir e s.queue }, [GitCall.pull])

/-- The `try:` body of `_async_pull` (preflight dirtiness check,
`_commit_all_changes` when auto-commit is enabled, the skip branch,
and the fetch step).  Exceptions raised by `_commit_all_changes` are
re-raised there and land in the same `except` handlers as a pull
failure, which is what the `pullExcQueue` calls model. -/
def pullBody (repoDir : String) (silent autoCommit : Bool) (env : PullEnv) (s : SyncState) :
    SyncState × List GitCall :=
  if env.isDirty then
    if autoCommit then
      match env.stageAllExc with
      | some e => ({ s with queue := pullExcQueue silent repoDir e s.queue }, [GitCall.stageAll])
      | none =>
        match env.commitAllExc with
        | some e => ({ s with queue := pullExcQueue silent repoDir e s.queue },
                     [GitCall.stageAll, GitCall.commitAll autoCommitMsg])
        | none =>
          let s1 := { s with queue :=
            (if silent then s.queue
             else echoMessage silent ("Committed uncommitted changes in " ++ baseName repoDir) false s.queue) }
          let r := doPullStep repoDir silent env s1
          (r.1, GitCall.stageAll :: GitCall.commitAll autoCommitMsg :: r.2)
    else
      ({ s with queue :=
        (if silent then s.queue
         else echoMessage silent ("Skipping pull for " ++ baseName repoDir ++ " - uncommitted changes present") true s.queue) }, [])
  else doPullStep repoDir silent env s

/-- `_async_pull`: acquire the key `pull:<dir>` (return silently when
already in flight), run the body, and in `finally` discard the key. -/
def asyncPull (repoDir : String) (silent autoCommit : Bool) (env : PullEnv) (s : SyncState) :
    SyncState × List GitCall :=
  let key := "pull:" ++ repoDir
  if s.active.contains key then (s, [])
  else
    let s1 := { s with active := key :: s.active }
    let r := pullBody repoDir silent autoCommit env s1
    ({ r.1 with active := r.1.active.erase key }, r.2)

/-- Status of the saved file as the git backend sees it.  GitPython's
`Repo.is_dirty(path=p)` (called at line 378 with only `path`) leaves
`untracked_files` at its default `False`, so it reports only
uncommitted changes to tracked files: a newly created, never-committed
file is NOT dirty under this call. -/
inductive FileStatus where
  | modifiedTracked
  | newlyUntracked
  | clean
deriving Repr, DecidableEq

/-- `repo.is_dirty(path=rel_filepath)` with `untracked_files=False`. -/
def isDirtyPath : FileStatus → Bool
  | .modifiedTracked => true
  | .newlyUntracked => false
  | .clean => false

/-- Substitute the file name for each `%s` occurrence. -/
def substSlot (file : List Char) : List Char → List Char
  | '%' :: 's' :: t => file ++ substSlot file t
  | c :: t => c :: substSlot file t
  | [] => []

/-- Python's `commit_template % rel_filepath` for a template with one
`%s` substitution slot (the documented template shape). -/
def applyTemplate (tmpl file : String) : String :=
  ⟨substSlot file.data tmpl.data⟩

/-- Environment for one `_async_commit_and_push` run. -/
structure PushEnv where
  /-- Status of the file, determining `repo.is_dirty(path=...)`. -/
  status : FileStatus
  /-- Exception raised by `repo.index.add([rel_filepath])`, if any. -/
  addExc : Option Exc
  /-- Exception raised by `repo.index.commit(...)`, if any. -/
  commitExc : Option Exc
  /-- Exception raised by `repo.remotes.origin.push()`, if any. -/
  pushExc : Option Exc
deriving Repr, DecidableEq

/-- The two `except` blocks of `_async_commit_and_push`. -/
def pushExcQueue (silent : Bool) (relFilepath : String) (e : Exc) (q : List Msg) : List Msg :=
  match e with
  | .git msg => echoMessage silent ("Git commit/push failed for " ++ relFilepath ++ ": " ++ msg) true q
  | .other msg => echoMessage silent ("Unexpected error during commit/push: " ++ msg) true q

/-- The `try:` body of `_async_commit_and_push`: if
`repo.is_dirty(path=rel_filepath)` then add, commit with the
instantiated template, push, and (unless silent) emit the success
message; otherwise do nothing at all. -/
def pushBody (relFilepath commitTemplate : String) (silent : Bool) (env : PushEnv) (s : SyncState) :
    SyncState × List GitCall :=
  if isDirtyPath env.status then
    let commitMsg := applyTemplate commitTemplate relFilepath
    match env.addExc with
    | some e => ({ s with queue := pushExcQueue silent relFilepath e s.queue },
                 [GitCall.stagePath relFilepath])
    | none =>
      match env.commitExc with
      | some e => ({ s with queue := pushExcQueue silent relFilepath e s.queue },
                   [GitCall.stagePath relFilepath, GitCall.commit commitMsg])
      | none =>
        match env.pushExc with
        | some e => ({ s with queue := pushExcQueue silent relFilepath e s.queue },
                     [GitCall.stagePath relFilepath, GitCall.commit commitMsg, GitCall.push])
        | none =>
          ({ s with queue :=
            (if silent then s.queue
             else echoMessage silent ("Auto-synced: " ++ relFilepath) false s.queue) },
           [GitCall.stagePath relFilepath, GitCall.commit commitMsg, GitCall.push])
  else (s, [])

/-- `_async_commit_and_push`: acquire `push:<dir>:<relpath>` (return
silently when already in flight), run the body, `finally` discard. -/
def asyncCommitAndPush (repoDir relFilepath commitTemplate : String) (silent : Bool)
    (env : PushEnv) (s : SyncState) : SyncState × List GitCall :=
  let key := "push:" ++ repoDir ++ ":" ++ relFilepath
  if s.active.contains key then (s, [])
  else
    let s1 := { s with active := key :: s.active }
    let r := pushBody relFilepath commitTemplate silent env s1
    ({ r.1 with active := r.1.active.erase key }, r.2)

/-- `str.strip()`: drop leading and trailing whitespace. -/
def trimChars (l : List Char) : List Char :=
  ((l.dropWhile Char.isWhitespace).reverse.dropWhile Char.isWhitespace).reverse

/-- Numeric value of a digit string. -/
def digitsVal (l : List Char) : Nat :=
  l.foldl (fun a c => a * 10 + (c.toNat - 48)) 0

/-- Parse an unsigned decimal literal (`123` or `123.45`), keeping the
integer part — timestamps are modelled at whole-second granularity. -/
def parseDecimalNat (l : List Char) : Option Nat :=
  let intPart := l.takeWhile Char.isDigit
  let rest := l.dropWhile Char.isDigit
  if intPart.isEmpty then none
  else
    match rest with
    | [] => some (digitsVal intPart)
    | '.' :: frac => if frac.all Char.isDigit then some (digitsVal intPart) else none
    | _ => none

/-- Parse an optionally signed decimal literal. -/
def parseDecimal : List Char → Option Int
  | '-' :: t => (parseDecimalNat t).map (fun n => -(n : Int))
  | l => (parseDecimalNat l).map (fun n => (n : Int))

/-- `float(f.read().strip())` in `_get_last_pull_time`, as the partial
parse of the sidecar file's content (a `ValueError` — any content that
is not a decimal literal — is `none`). -/
def parseTimestamp (content : String) : Option Int :=
  parseDecimal (trimChars content.data)

/-- `_get_last_pull_time`: return the cached value; on first access
read the sidecar file, defaulting to 0 when it is missing or does not
parse, and cache the result. -/
def getLastPullTime (repoDir : String) (s : SyncState) : Int × SyncState :=
  match s.lastPullTimes.lookup repoDir with
  | some t => (t, s)
  | none =>
    let t : Int :=
      match s.sidecarFiles.lookup repoDir with
      | some content => (parseTimestamp content).getD 0
      | none => 0
    (t, { s with lastPullTimes := (repoDir, t) :: s.lastPullTimes })

/-- `_should_pull`: `current_time - last_pull_time >= pull_interval`. -/
def shouldPull (repoDir : String) (now interval : Int) (s : SyncState) : Bool × SyncState :=
  let r := getLastPullTime repoDir s
  (decide (now - r.1 ≥ interval), r.2)

/-- Environment for `_get_repo_for_file`: `os.path.abspath` and
whether `Repo(dir)` succeeds for a given directory. -/
structure ResolveEnv where
  absPath : String → String
  openOk : String → Bool

/-- Result of `_get_repo_for_file`: the resolved repository (its
directory stands for the handle), the updated `_repos` cache (list of
opened directories), and the updated message queue. -/
structure ResolveResult where
  repo : Option String
  repos : List String
  queue : List Msg
deriving Repr, DecidableEq

/-- The `for managed_dir in managed_dirs:` loop of
`_get_repo_for_file`: first directory whose absolute form is a string
prefix of the file's absolute path is tried; cached → returned; not
cached → `Repo(dir)` attempted, cached and returned on success; on
failure an error is reported and the loop continues (`continue`)
without caching anything. -/
def resolveGo (env : ResolveEnv) (absP : String) (silent : Bool) :
    List String → List String → List Msg → ResolveResult
  | [], repos, q => ⟨none, repos, q⟩
  | d :: rest, repos, q =>
    let ad := env.absPath d
    if ad.isPrefixOf absP then
      if repos.contains ad then ⟨some ad, repos, q⟩
      else if env.openOk ad then ⟨some ad, ad :: repos, q⟩
      else resolveGo env absP silent rest repos
        (echoMessage silent ("Error initializing Git repository for " ++ ad) true q)
    else resolveGo env absP silent rest repos q

/-- `_get_repo_for_file`: empty path → nothing; otherwise scan the
configured managed directories in order. -/
def getRepoForFile (env : ResolveEnv) (managedDirs : List String) (silent : Bool)
    (filepath : String) (repos : List String) (q : List Msg) : ResolveResult :=
  if filepath = "" then ⟨none, repos, q⟩
  else resolveGo env (env.absPath filepath) silent managedDirs repos q

/-- Result of `manual_pull`'s main-thread part: `spawned` is the
repository directory a background `_async_pull` was started for, if
any. -/
structure ManualPullResult where
  spawned : Option String
  repos : List String
  queue : List Msg
deriving Repr, DecidableEq

/-- `manual_pull` up to the `threading.Thread(...).start()` call: it
resolves the current file's repository and, whenever that succeeds,
starts the pull — `_should_pull` is never consulted ("Force pull
regardless of interval"). -/
def manualPull (initialized : Bool) (env : ResolveEnv) (managedDirs : List String)
    (silent : Bool) (filename : String) (repos : List String) (q : List Msg) :
    ManualPullResult :=
  if !initialized then
    ⟨none, repos, echoMessage silent "Plugin not initialized" true q⟩
  else if filename = "" then
    ⟨none, repos, echoMessage silent "No file in current buffer" true q⟩
  else
    let r := getRepoForFile env managedDirs silent filename repos q
    match r.repo with
    | none => ⟨none, r.repos, echoMessage silent "File is not in a managed directory" true r.queue⟩
    | some d => ⟨some d, r.repos, echoMessage silent ("Pulling changes for " ++ d ++ "...") false r.queue⟩

/-- What the drain loop does with one dequeued message. -/
inductive DrainAction where
  | scheduleReload
  | echoInfo (msg : String)
  | echoError (msg : String)
deriving Repr, DecidableEq

/-- The per-message branch of `process_queued_messages`: the literal
`"SCHEDULE_RELOAD"` marker schedules the buffer-reload hook; any other
message is echoed, error-styled when its error flag is set. -/
def renderMsg (m : Msg) : DrainAction :=
  if m.1 = "SCHEDULE_RELOAD" then .scheduleReload
  else if m.2 then .echoError m.1
  else .echoInfo m.1

/-- The `while not _message_queue.empty() and messages_processed < 10:`
loop, with the remaining budget made explicit. -/
def drainGo : Nat → List Msg → List DrainAction × List Msg
  | 0, q => ([], q)
  | _ + 1, [] => ([], [])
  | b + 1, m :: rest =>
    let r := drainGo b rest
    (renderMsg m :: r.1, r.2)

/-- `process_queued_messages`: drain at most 10 messages per call. -/
def processQueuedMessages (q : List Msg) : List DrainAction × List Msg :=
  drainGo 10 q

/-- Modelled from the spec: the claim's description of repository
resolution — "the repository of the first configured managed directory
(in configuration order) whose absolute form is a string prefix of the
file's absolute path", where (per the claim's failure clause) a
directory whose handle is neither cached nor openable is skipped for
this call.  Used only to compare against `getRepoForFile`. -/
def resolveSpecFirstMatch (env : ResolveEnv) (managedDirs : List String)
    (repos : List String) (absP : String) : Option String :=
  (managedDirs.map env.absPath).find?
    (fun ad => ad.isPrefixOf absP && (repos.contains ad || env.openOk ad))

/-- Modelled from the spec: the last-pull time as claim C6 describes it
— the cached value, else the parsed sidecar content, else zero (also
zero when the content does not parse). -/
def lastPullTimeSpec (repoDir : String) (s : SyncState) : Int :=
  match s.lastPullTimes.lookup repoDir with
  | some t => t
  | none =>
    match s.sidecarFiles.lookup repoDir with
    | some content => (parseTimestamp content).getD 0
    | none => 0

/-! ## Helper lemmas -/

/-- The try-body of `_async_pull` never touches the in-flight set. -/
theorem pullBody_active (repoDir : String) (silent autoCommit : Bool) (env : PullEnv)
    (s : SyncState) : (pullBody repoDir silent autoCommit env s).1.active = s.active := by
  obtain ⟨d, se, ce, pe, w, n⟩ := env
  cases d <;> cases autoCommit <;> cases se <;> cases ce <;> cases pe <;> cases w <;>
    simp [pullBody, doPullStep, updateLastPullTime]

/-- The try-body of `_async_commit_and_push` never touches the
in-flight set. -/
theorem pushBody_active (relFilepath commitTemplate : String) (silent : Bool) (env : PushEnv)
    (s : SyncState) : (pushBody relFilepath commitTemplate silent env s).1.active = s.active := by
  obtain ⟨st, ae, ce, pe⟩ := env
  cases st <;> cases ae <;> cases ce <;> cases pe <;>
    simp [pushBody, isDirtyPath]

/-- The try-body of `_async_pull` never touches timestamps on any
path that does not reach a successful `pull()`. -/
theorem pullBody_frame (repoDir : String) (silent autoCommit : Bool) (env : PullEnv)
    (s : SyncState)
    (hfail : (env.isDirty = true ∧
        (autoCommit = false ∨ env.stageAllExc ≠ none ∨ env.commitAllExc ≠ none)) ∨
      env.pullExc ≠ none) :
    (pullBody repoDir silent autoCommit env s).1.lastPullTimes = s.lastPullTimes ∧
    (pullBody repoDir silent autoCommit env s).1.sidecarFiles = s.sidecarFiles := by
  obtain ⟨d, se, ce, pe, w, n⟩ := env
  cases d <;> cases autoCommit <;> cases se <;> cases ce <;> cases pe <;>
    simp_all [pullBody, doPullStep, updateLastPullTime]

/-- The value `_get_last_pull_time` returns is the cache / sidecar /
zero cascade. -/
theorem getLastPullTime_fst (repoDir : String) (s : SyncState) :
    (getLastPullTime repoDir s).1 = lastPullTimeSpec repoDir s := by
  unfold getLastPullTime lastPullTimeSpec
  cases s.lastPullTimes.lookup repoDir <;> simp

/-- `_should_pull` reads only the timestamp cache and the sidecar
files. -/
theorem shouldPull_congr (repoDir : String) (now interval : Int) (s s' : SyncState)
    (h1 : s.lastPullTimes = s'.lastPullTimes) (h2 : s.sidecarFiles = s'.sidecarFiles) :
    (shouldPull repoDir now interval s).1 = (shouldPull repoDir now interval s').1 := by
  simp only [shouldPull, getLastPullTime_fst, lastPullTimeSpec, h1, h2]

/-- `subOf` decides list containment (`List.IsInfix`). -/
theorem subOf_iff (n h : List Char) : subOf n h = true ↔ n <:+: h := by
  induction h with
  | nil => simp [subOf, List.isEmpty_iff, List.infix_nil]
  | cons c t ih =>
    simp [subOf, ih, List.infix_cons_iff, List.isPrefixOf_iff_prefix]

/-- A message containing `"merge conflict"` also contains
`"conflict"`. -/
theorem containsSub_of_mergeConflict (m : String)
    (h : containsSub m "merge conflict" = true) : containsSub m "conflict" = true := by
  rw [containsSub, subOf_iff] at h ⊢
  exact List.IsInfix.trans ((subOf_iff _ _).1 (by decide)) h

/-! ## Claims -/

/-- C1: for every operation key (pull keyed by directory, push keyed by
directory and relative file path), acquisition atomically inserts the
key only if it is absent and returns without side effects if already
present, and a task that acquired the key removes it exactly once on
every exit path, so the in-flight set is restored on completion of
either operation under every backend outcome. -/
theorem autosync_C1 (key : String) (active : List String) (dir rel tmpl : String)
    (silent ac : Bool) (env : PullEnv) (penv : PushEnv) (s : SyncState) :
    (key ∈ active → tryAcquire key active = (false, active)) ∧
    (key ∉ active → tryAcquire key active = (true, key :: active)) ∧
    ("pull:" ++ dir ∈ s.active → asyncPull dir silent ac env s = (s, [])) ∧
    ((asyncPull dir silent ac env s).1.active = s.active) ∧
    ("push:" ++ dir ++ ":" ++ rel ∈ s.active →
      asyncCommitAndPush dir rel tmpl silent penv s = (s, [])) ∧
    ((asyncCommitAndPush dir rel tmpl silent penv s).1.active = s.active) := by
  refine ⟨fun h => by simp [tryAcquire, h], fun h => by simp [tryAcquire, h],
    fun h => by simp [asyncPull, h], ?_,
    fun h => by simp [asyncCommitAndPush, h], ?_⟩
  · by_cases h : "pull:" ++ dir ∈ s.active
    · simp [asyncPull, h]
    · simp [asyncPull, h, pullBody_active, List.erase_cons_head]
  · by_cases h : "push:" ++ dir ++ ":" ++ rel ∈ s.active
    · simp [asyncCommitAndPush, h]
    · simp [asyncCommitAndPush, h, pushBody_active, List.erase_cons_head]

/-- C1 witness: concrete acquisitions and runs. -/
theorem autosync_C1_witness :
    tryAcquire "pull:/r" ["pull:/r"] = (false, ["pull:/r"]) ∧
    tryAcquire "pull:/r" [] = (true, ["pull:/r"]) ∧
    asyncPull "/r" false true ⟨false, none, none, none, true, 7⟩
      ⟨["pull:/r"], [], [], []⟩ = (⟨["pull:/r"], [], [], []⟩, []) ∧
    (asyncPull "/r" false true ⟨false, none, none, none, true, 7⟩ ⟨[], [], [], []⟩).1.active = [] ∧
    asyncCommitAndPush "/r" "a" "t %s" false ⟨.modifiedTracked, none, none, none⟩
      ⟨["push:/r:a"], [], [], []⟩ = (⟨["push:/r:a"], [], [], []⟩, []) ∧
    (asyncCommitAndPush "/r" "a" "t %s" false ⟨.modifiedTracked, none, none, none⟩
      ⟨[], [], [], []⟩).1.active = [] := by
  have h := autosync_C1 "pull:/r" ["pull:/r"] "/r" "a" "t %s" false true
    ⟨false, none, none, none, true, 7⟩ ⟨.modifiedTracked, none, none, none⟩
    ⟨["pull:/r"], [], [], []⟩
  have h0 := autosync_C1 "pull:/r" [] "/r" "a" "t %s" false true
    ⟨false, none, none, none, true, 7⟩ ⟨.modifiedTracked, none, none, none⟩
    ⟨[], [], [], []⟩
  have hp := autosync_C1 "push:/r:a" [] "/r" "a" "t %s" false true
    ⟨false, none, none, none, true, 7⟩ ⟨.modifiedTracked, none, none, none⟩
    ⟨["push:/r:a"], [], [], []⟩
  exact ⟨h.1 (by decide), h0.2.1 (by decide), h.2.2.1 (by decide),
    h0.2.2.2.1, hp.2.2.2.2.1 (by decide), h0.2.2.2.2.2⟩

/-- C2 counterexample: a newly created, never-committed file — the
claim's "newly untracked" case — is pushed through
`repo.is_dirty(path=...)`, which with its default
`untracked_files=False` reports it clean, so the run issues zero git
calls and emits nothing, contradicting "a newly untracked file is
committed and pushed". -/
theorem autosync_C2_cx :
    (asyncCommitAndPush "/repo" "new.txt" "Auto-sync: Updated %s" false
      ⟨.newlyUntracked, none, none, none⟩ ⟨[], [], [], []⟩).2 = [] ∧
    (asyncCommitAndPush "/repo" "new.txt" "Auto-sync: Updated %s" false
      ⟨.newlyUntracked, none, none, none⟩ ⟨[], [], [], []⟩).1.queue = [] := by
  decide

/-- C2 (amended): a commit-and-push operation stages, commits and
pushes exactly the files the backend's tracked-changes dirtiness check
`repo.is_dirty(path=...)` reports as modified; every other file —
including a newly untracked one — yields zero git calls and zero
notifications. -/
theorem autosync_C2 (dir rel tmpl : String) (silent : Bool) (env : PushEnv) (s : SyncState) :
    (isDirtyPath env.status = false → asyncCommitAndPush dir rel tmpl silent env s = (s, [])) ∧
    (env.status = .newlyUntracked → asyncCommitAndPush dir rel tmpl silent env s = (s, [])) ∧
    (env.status = .modifiedTracked → env.addExc = none → env.commitExc = none →
      env.pushExc = none → "push:" ++ dir ++ ":" ++ rel ∉ s.active →
      (asyncCommitAndPush dir rel tmpl silent env s).2 =
        [GitCall.stagePath rel, GitCall.commit (applyTemplate tmpl rel), GitCall.push] ∧
      (asyncCommitAndPush dir rel tmpl silent env s).1.queue =
        (if silent then s.queue else s.queue ++ [("Auto-synced: " ++ rel, false)])) := by
  obtain ⟨st, ae, ce, pe⟩ := env
  refine ⟨?_, ?_, ?_⟩
  · intro h
    by_cases hk : "push:" ++ dir ++ ":" ++ rel ∈ s.active
    · simp [asyncCommitAndPush, hk]
    · simp [asyncCommitAndPush, hk, pushBody, h, List.erase_cons_head]
  · intro h
    subst h
    by_cases hk : "push:" ++ dir ++ ":" ++ rel ∈ s.active
    · simp [asyncCommitAndPush, hk]
    · simp [asyncCommitAndPush, hk, pushBody, isDirtyPath, List.erase_cons_head]
  · intro h ha hc hp hk
    subst h; subst ha; subst hc; subst hp
    cases silent <;>
      simp [asyncCommitAndPush, hk, pushBody, isDirtyPath, echoMessage,
        List.erase_cons_head]

/-- C2 witness: a modified tracked file is staged, committed with the
instantiated template and pushed, with one success message; a clean
file is a complete no-op. -/
theorem autosync_C2_witness :
    (asyncCommitAndPush "/r" "a.txt" "Auto-sync: Updated %s" false
      ⟨.modifiedTracked, none, none, none⟩ ⟨[], [], [], []⟩).2 =
      [GitCall.stagePath "a.txt", GitCall.commit (applyTemplate "Auto-sync: Updated %s" "a.txt"),
       GitCall.push] ∧
    (asyncCommitAndPush "/r" "a.txt" "Auto-sync: Updated %s" false
      ⟨.modifiedTracked, none, none, none⟩ ⟨[], [], [], []⟩).1.queue =
      [("Auto-synced: " ++ "a.txt", false)] ∧
    asyncCommitAndPush "/r" "c.txt" "Auto-sync: Updated %s" false
      ⟨.clean, none, none, none⟩ ⟨[], [], [], []⟩ = (⟨[], [], [], []⟩, []) := by
  have h := autosync_C2 "/r" "a.txt" "Auto-sync: Updated %s" false
    ⟨.modifiedTracked, none, none, none⟩ ⟨[], [], [], []⟩
  have hc := autosync_C2 "/r" "c.txt" "Auto-sync: Updated %s" false
    ⟨.clean, none, none, none⟩ ⟨[], [], [], []⟩
  refine ⟨?_, ?_, hc.1 (by decide)⟩
  · have := (h.2.2 rfl rfl rfl rfl (by decide)).1
    simpa using this
  · have := (h.2.2 rfl rfl rfl rfl (by decide)).2
    simpa using this

/-- C3 counterexample: pulling a dirty directory with auto-commit
disabled (silent off, key free) emits exactly one notification, and it
carries the error flag (`error=True` at line 309) — there is no
non-error notification, contradicting "exactly one informational
(non-error) notification". -/
theorem autosync_C3_cx :
    (asyncPull "/repo" false false ⟨true, none, none, none, true, 5⟩ ⟨[], [], [], []⟩).2 = [] ∧
    (asyncPull "/repo" false false ⟨true, none, none, none, true, 5⟩
      ⟨[], [], [], []⟩).1.queue.length = 1 ∧
    (asyncPull "/repo" false false ⟨true, none, none, none, true, 5⟩
      ⟨[], [], [], []⟩).1.queue.filter (fun m => !m.2) = [] := by
  decide

/-- C3 (amended): for every pull operation on a dirty directory with
auto-commit-before-pull disabled (silent mode off, no duplicate in
flight), the pull is aborted with zero calls to the git backend, the
ledger key is released, the timestamps are untouched, and exactly one
notification is emitted — carrying the error flag (it is rendered
error-styled), though the skip itself raises nothing and is never
retried. -/
theorem autosync_C3 (dir : String) (env : PullEnv) (s : SyncState)
    (hd : env.isDirty = true) (hk : "pull:" ++ dir ∉ s.active) :
    (asyncPull dir false false env s).2 = [] ∧
    (asyncPull dir false false env s).1.active = s.active ∧
    (asyncPull dir false false env s).1.lastPullTimes = s.lastPullTimes ∧
    (asyncPull dir false false env s).1.sidecarFiles = s.sidecarFiles ∧
    (asyncPull dir false false env s).1.queue =
      s.queue ++ [("Skipping pull for " ++ baseName dir ++ " - uncommitted changes present", true)] := by
  simp [asyncPull, hk, pullBody, hd, echoMessage, List.erase_cons_head]

/-- C3 witness: the dirty-skip scenario at a concrete state. -/
theorem autosync_C3_witness :
    (asyncPull "/repo" false false ⟨true, none, none, none, true, 5⟩
      ⟨[], [("/x", 3)], [], [("old", false)]⟩).2 = [] ∧
    (asyncPull "/repo" false false ⟨true, none, none, none, true, 5⟩
      ⟨[], [("/x", 3)], [], [("old", false)]⟩).1.active = [] ∧
    (asyncPull "/repo" false false ⟨true, none, none, none, true, 5⟩
      ⟨[], [("/x", 3)], [], [("old", false)]⟩).1.lastPullTimes = [("/x", 3)] ∧
    (asyncPull "/repo" false false ⟨true, none, none, none, true, 5⟩
      ⟨[], [("/x", 3)], [], [("old", false)]⟩).1.sidecarFiles = [] ∧
    (asyncPull "/repo" false false ⟨true, none, none, none, true, 5⟩
      ⟨[], [("/x", 3)], [], [("old", false)]⟩).1.queue =
      [("old", false)] ++
        [("Skipping pull for " ++ baseName "/repo" ++ " - uncommitted changes present", true)] :=
  autosync_C3 "/repo" ⟨true, none, none, none, true, 5⟩
    ⟨[], [("/x", 3)], [], [("old", false)]⟩ rfl (by decide)

/-- C4: a pull failure whose message contains "conflict"
(case-insensitively) is classified as a conflict and surfaced as the
distinct manual-resolution error; otherwise a message containing "up
to date" produces no user-facing message at all (debug log only); any
other failure is surfaced as the generic pull-failure error; in every
case exactly one pull call was made (no retry). -/
theorem autosync_C4 (msg dir : String) (env : PullEnv) (s : SyncState) :
    (containsSub (toLowerStr msg) "conflict" = true → classifyPull msg = .conflict) ∧
    (containsSub (toLowerStr msg) "conflict" = false →
      containsSub (toLowerStr msg) "up to date" = true → classifyPull msg = .upToDate) ∧
    (containsSub (toLowerStr msg) "conflict" = false →
      containsSub (toLowerStr msg) "up to date" = false → classifyPull msg = .generic) ∧
    (env.isDirty = false → env.pullExc = some (.git msg) → "pull:" ++ dir ∉ s.active →
      (asyncPull dir false true env s).2 = [GitCall.pull] ∧
      (asyncPull dir false true env s).1.queue = s.queue ++
        (match classifyPull msg with
         | .conflict => [("Merge conflict in " ++ dir ++ ". Please resolve manually.", true)]
         | .upToDate => []
         | .generic => [("Git pull failed for " ++ dir ++ ": " ++ msg, true)])) := by
  have hmc : containsSub (toLowerStr msg) "conflict" = false →
      containsSub (toLowerStr msg) "merge conflict" = false := by
    intro h
    cases hm : containsSub (toLowerStr msg) "merge conflict"
    · rfl
    · exact absurd (containsSub_of_mergeConflict _ hm) (by simp [h])
  refine ⟨?_, ?_, ?_, ?_⟩
  · intro h
    simp [classifyPull, h]
  · intro h hu
    simp [classifyPull, h, hmc h, hu]
  · intro h hu
    simp [classifyPull, h, hmc h, hu]
  · intro hd hp hk
    rcases hcl : classifyPull msg with _ | _ | _ <;>
      simp [asyncPull, hk, pullBody, hd, doPullStep, hp, pullExcQueue, hcl, echoMessage,
        List.erase_cons_head]

/-- C4 witness: concrete messages of each class, and a concrete failed
pull surfacing the conflict error. -/
theorem autosync_C4_witness :
    classifyPull "CONFLICT (content): Merge conflict in a.txt" = .conflict ∧
    classifyPull "Already up to date." = .upToDate ∧
    classifyPull "fatal: unable to access remote" = .generic ∧
    (asyncPull "/repo" false true
      ⟨false, none, none, some (.git "CONFLICT (content): Merge conflict in a.txt"), true, 5⟩
      ⟨[], [], [], []⟩).2 = [GitCall.pull] ∧
    (asyncPull "/repo" false true
      ⟨false, none, none, some (.git "CONFLICT (content): Merge conflict in a.txt"), true, 5⟩
      ⟨[], [], [], []⟩).1.queue = [] ++
      (match classifyPull "CONFLICT (content): Merge conflict in a.txt" with
       | .conflict => [("Merge conflict in " ++ "/repo" ++ ". Please resolve manually.", true)]
       | .upToDate => []
       | .generic => [("Git pull failed for " ++ "/repo" ++ ": " ++
           "CONFLICT (content): Merge conflict in a.txt", true)]) := by
  have h1 := autosync_C4 "CONFLICT (content): Merge conflict in a.txt" "/repo"
    ⟨false, none, none, some (.git "CONFLICT (content): Merge conflict in a.txt"), true, 5⟩
    ⟨[], [], [], []⟩
  have h2 := autosync_C4 "Already up to date." "/repo"
    ⟨false, none, none, none, true, 5⟩ ⟨[], [], [], []⟩
  have h3 := autosync_C4 "fatal: unable to access remote" "/repo"
    ⟨false, none, none, none, true, 5⟩ ⟨[], [], [], []⟩
  exact ⟨h1.1 (by decide), h2.2.1 (by decide) (by decide), h3.2.2.1 (by decide) (by decide),
    (h1.2.2.2 rfl rfl (by decide)).1, (h1.2.2.2 rfl rfl (by decide)).2⟩

/-- C5: a pull that reaches the remote fetch and succeeds persists the
new timestamp to the in-memory cache and (the write succeeding) to the
sidecar file, emits the success notification exactly when silent mode
is off, and enqueues the deferred reload marker. -/
theorem autosync_C5 (dir : String) (silent ac : Bool) (env : PullEnv) (s : SyncState)
    (hk : "pull:" ++ dir ∉ s.active)
    (hreach : env.isDirty = true → (ac = true ∧ env.stageAllExc = none ∧ env.commitAllExc = none))
    (hp : env.pullExc = none) (hw : env.writeOk = true) :
    (asyncPull dir silent ac env s).1.lastPullTimes.lookup dir = some env.now ∧
    (asyncPull dir silent ac env s).1.sidecarFiles.lookup dir = some (toString env.now) ∧
    (asyncPull dir silent ac env s).1.queue =
      s.queue ++
        (if env.isDirty && !silent then
          [("Committed uncommitted changes in " ++ baseName dir, false)] else []) ++
        (if silent then [] else [("Pulled updates for " ++ baseName dir, false)]) ++
        [("SCHEDULE_RELOAD", false)] := by
  obtain ⟨d, se, ce, pe, w, n⟩ := env
  subst hp; subst hw
  cases d
  · cases silent <;>
      simp [asyncPull, hk, pullBody, doPullStep, updateLastPullTime, echoMessage, List.lookup]
  · obtain ⟨hac, hse, hce⟩ := hreach rfl
    subst hac; subst hse; subst hce
    cases silent <;>
      simp [asyncPull, hk, pullBody, doPullStep, updateLastPullTime, echoMessage, List.lookup]

/-- C5 witness: a concrete successful pull on a clean tree. -/
theorem autosync_C5_witness :
    (asyncPull "/repo" false true ⟨false, none, none, none, true, 42⟩
      ⟨[], [("/x", 3)], [], []⟩).1.lastPullTimes.lookup "/repo" = some 42 ∧
    (asyncPull "/repo" false true ⟨false, none, none, none, true, 42⟩
      ⟨[], [("/x", 3)], [], []⟩).1.sidecarFiles.lookup "/repo" = some (toString (42 : Int)) ∧
    (asyncPull "/repo" false true ⟨false, none, none, none, true, 42⟩
      ⟨[], [("/x", 3)], [], []⟩).1.queue =
      [] ++ (if false && !false then
          [("Committed uncommitted changes in " ++ baseName "/repo", false)] else []) ++
        (if false then [] else [("Pulled updates for " ++ baseName "/repo", false)]) ++
        [("SCHEDULE_RELOAD", false)] :=
  autosync_C5 "/repo" false true ⟨false, none, none, none, true, 42⟩ ⟨[], [("/x", 3)], [], []⟩
    (by decide) (fun h => by cases h) rfl rfl

/-- C6: `_should_pull` is exactly the threshold test `now - lastPull ≥
interval`, where the last-pull time is the cached value, else the
parsed sidecar value, else zero (also zero for unparsable content);
`manual_pull` spawns the pull purely on repository resolution, never
consulting `_should_pull`. -/
theorem autosync_C6 (dir : String) (now interval : Int) (s : SyncState) (init : Bool)
    (env : ResolveEnv) (dirs : List String) (silent : Bool) (f : String)
    (repos : List String) (q : List Msg) :
    ((shouldPull dir now interval s).1 = true ↔ now - lastPullTimeSpec dir s ≥ interval) ∧
    (s.lastPullTimes.lookup dir = none → s.sidecarFiles.lookup dir = none →
      lastPullTimeSpec dir s = 0) ∧
    (∀ c, s.lastPullTimes.lookup dir = none → s.sidecarFiles.lookup dir = some c →
      parseTimestamp c = none → lastPullTimeSpec dir s = 0) ∧
    (init = true → f ≠ "" →
      (manualPull init env dirs silent f repos q).spawned =
        (getRepoForFile env dirs silent f repos q).repo) := by
  refine ⟨?_, ?_, ?_, ?_⟩
  · rw [shouldPull, getLastPullTime_fst]
    exact decide_eq_true_iff
  · intro h1 h2
    simp [lastPullTimeSpec, h1, h2]
  · intro c h1 h2 hp
    simp [lastPullTimeSpec, h1, h2, hp]
  · intro hi hf
    subst hi
    simp only [manualPull, Bool.not_true, Bool.false_eq_true, if_false, hf]
    cases hr : (getRepoForFile env dirs silent f repos q).repo <;> simp [hr]

/-- C6 witness: concrete threshold checks and a manual pull that
spawns despite a fresh last-pull time being irrelevant to it. -/
theorem autosync_C6_witness :
    ((shouldPull "/r" 100 60 ⟨[], [("/r", 50)], [], []⟩).1 = true ↔
      (100 : Int) - lastPullTimeSpec "/r" ⟨[], [("/r", 50)], [], []⟩ ≥ 60) ∧
    lastPullTimeSpec "/r" ⟨[], [], [], []⟩ = 0 ∧
    lastPullTimeSpec "/r" ⟨[], [], [("/r", "garbage")], []⟩ = 0 ∧
    (manualPull true ⟨fun p => p, fun _ => true⟩ ["/r"] false "/r/a.txt" [] []).spawned =
      (getRepoForFile ⟨fun p => p, fun _ => true⟩ ["/r"] false "/r/a.txt" [] []).repo := by
  have h := autosync_C6 "/r" 100 60 ⟨[], [("/r", 50)], [], []⟩ true
    ⟨fun p => p, fun _ => true⟩ ["/r"] false "/r/a.txt" [] []
  have h0 := autosync_C6 "/r" 100 60 ⟨[], [], [], []⟩ true
    ⟨fun p => p, fun _ => true⟩ ["/r"] false "/r/a.txt" [] []
  have hg := autosync_C6 "/r" 100 60 ⟨[], [], [("/r", "garbage")], []⟩ true
    ⟨fun p => p, fun _ => true⟩ ["/r"] false "/r/a.txt" [] []
  exact ⟨h.1, h0.2.1 (by decide) (by decide), hg.2.2.1 "garbage" (by decide) (by decide)
    (by decide), h.2.2.2 rfl (by decide)⟩

/-- The resolution loop returns the first managed directory whose
absolute form is a prefix of the path and which is cached or opens;
the cache gains exactly the successfully opened directory, nothing on
failure. -/
theorem resolveGo_spec (env : ResolveEnv) (absP : String) (silent : Bool)
    (dirs repos : List String) (q : List Msg) :
    (resolveGo env absP silent dirs repos q).repo =
      (dirs.map env.absPath).find?
        (fun ad => ad.isPrefixOf absP && (repos.contains ad || env.openOk ad)) ∧
    (resolveGo env absP silent dirs repos q).repos =
      (match (resolveGo env absP silent dirs repos q).repo with
       | none => repos
       | some d => if repos.contains d then repos else d :: repos) := by
  induction dirs generalizing q with
  | nil => simp [resolveGo]
  | cons d rest ih =>
    by_cases hpre : (env.absPath d).isPrefixOf absP
    · by_cases hc : env.absPath d ∈ repos
      · simp [resolveGo, hpre, hc, List.find?_cons]
      · by_cases ho : env.openOk (env.absPath d)
        · simp [resolveGo, hpre, hc, ho, List.find?_cons]
        · have := ih (echoMessage silent
            ("Error initializing Git repository for " ++ env.absPath d) true q)
          simpa [resolveGo, List.find?_cons, hpre, hc, ho] using this
    · have := ih q
      simpa [resolveGo, List.find?_cons, hpre] using this

/-- C7: repository resolution returns nothing for an empty path;
otherwise it returns the first configured managed directory (in
configuration order) whose absolute form is a string prefix of the
file's absolute path and whose handle is cached or opens; a successful
open is cached; an opening failure is never cached, so the next lookup
retries it. -/
theorem autosync_C7 (env : ResolveEnv) (dirs : List String) (silent : Bool) (f : String)
    (repos : List String) (q : List Msg) :
    (f = "" → getRepoForFile env dirs silent f repos q = ⟨none, repos, q⟩) ∧
    ((getRepoForFile env dirs silent f repos q).repo =
      if f = "" then none else resolveSpecFirstMatch env dirs repos (env.absPath f)) ∧
    ((getRepoForFile env dirs silent f repos q).repos =
      match (getRepoForFile env dirs silent f repos q).repo with
      | none => repos
      | some d => if repos.contains d then repos else d :: repos) ∧
    (∀ d, (getRepoForFile env dirs silent f repos q).repo = some d →
      repos.contains d = true ∨ env.openOk d = true) := by
  refine ⟨fun h => by simp [getRepoForFile, h], ?_, ?_, ?_⟩
  · by_cases h : f = ""
    · simp [getRepoForFile, h]
    · simp only [getRepoForFile, h, if_false, resolveSpecFirstMatch]
      exact (resolveGo_spec env (env.absPath f) silent dirs repos q).1
  · by_cases h : f = ""
    · simp [getRepoForFile, h]
    · simp only [getRepoForFile, h, if_false]
      exact (resolveGo_spec env (env.absPath f) silent dirs repos q).2
  · intro d hd
    by_cases h : f = ""
    · simp [getRepoForFile, h] at hd
    · rw [getRepoForFile, if_neg h,
        (resolveGo_spec env (env.absPath f) silent dirs repos q).1] at hd
      have h2 := List.find?_some hd
      simp only [Bool.and_eq_true, Bool.or_eq_true] at h2
      rcases h2.2 with h3 | h3
      · exact Or.inl (by simpa using h3)
      · exact Or.inr h3

/-- C7 witness: an empty path resolves to nothing; a matching path
resolves to the first matching directory and caches it. -/
theorem autosync_C7_witness :
    getRepoForFile ⟨fun p => p, fun _ => true⟩ ["/r"] false "" [] [] = ⟨none, [], []⟩ ∧
    (getRepoForFile ⟨fun p => p, fun _ => true⟩ ["/r"] false "/r/a.txt" [] []).repo =
      (if ("/r/a.txt" : String) = "" then none
       else resolveSpecFirstMatch ⟨fun p => p, fun _ => true⟩ ["/r"] [] "/r/a.txt") ∧
    ((getRepoForFile ⟨fun p => p, fun _ => true⟩ ["/r"] false "/r/a.txt" [] []).repo = some "/r" →
      ([] : List String).contains "/r" = true ∨ (fun (_ : String) => true) "/r" = true) := by
  have h := autosync_C7 ⟨fun p => p, fun _ => true⟩ ["/r"] false "" [] []
  have h2 := autosync_C7 ⟨fun p => p, fun _ => true⟩ ["/r"] false "/r/a.txt" [] []
  exact ⟨h.1 rfl, h2.2.1, h2.2.2.2 "/r"⟩

/-- The drain loop processes the queue front-first up to its budget. -/
theorem drainGo_eq (b : Nat) (q : List Msg) :
    drainGo b q = ((q.take b).map renderMsg, q.drop b) := by
  induction b generalizing q with
  | zero => simp [drainGo]
  | succ n ih =>
    cases q with
    | nil => simp [drainGo]
    | cons m t => simp [drainGo, ih]

/-- C8: one invocation of the consumer drain dequeues at most 10
messages, in FIFO order, rendering each non-marker message as an
informational or error-styled display according to its error flag and
turning the deferred-reload marker into the scheduling of the external
buffer-reload hook (`renderMsg`); the rest of the queue is left intact
in order. -/
theorem autosync_C8 (q : List Msg) :
    processQueuedMessages q = ((q.take 10).map renderMsg, q.drop 10) ∧
    (processQueuedMessages q).1.length ≤ 10 := by
  have h : processQueuedMessages q = ((q.take 10).map renderMsg, q.drop 10) := drainGo_eq 10 q
  refine ⟨h, ?_⟩
  rw [h]
  simp [List.length_take]

/-- C9: on every pull path that does not reach a successful remote
fetch — dirty-tree skip, preflight commit failure, or any pull
exception (conflict, up-to-date, generic) — both the in-memory
last-pull cache and the sidecar files are unchanged, so the
directory's pull eligibility is exactly what it was before. -/
theorem autosync_C9 (dir : String) (silent ac : Bool) (env : PullEnv) (s : SyncState)
    (now interval : Int)
    (hfail : (env.isDirty = true ∧
        (ac = false ∨ env.stageAllExc ≠ none ∨ env.commitAllExc ≠ none)) ∨
      env.pullExc ≠ none) :
    (asyncPull dir silent ac env s).1.lastPullTimes = s.lastPullTimes ∧
    (asyncPull dir silent ac env s).1.sidecarFiles = s.sidecarFiles ∧
    (shouldPull dir now interval (asyncPull dir silent ac env s).1).1 =
      (shouldPull dir now interval s).1 := by
  have key : (asyncPull dir silent ac env s).1.lastPullTimes = s.lastPullTimes ∧
      (asyncPull dir silent ac env s).1.sidecarFiles = s.sidecarFiles := by
    by_cases hk : "pull:" ++ dir ∈ s.active
    · simp [asyncPull, hk]
    · have hb := pullBody_frame dir silent ac env
        { s with active := ("pull:" ++ dir) :: s.active } hfail
      simp only [asyncPull, List.elem_eq_mem, hk, decide_eq_true_eq, if_neg hk]
      exact ⟨hb.1, hb.2⟩
  exact ⟨key.1, key.2, shouldPull_congr dir now interval _ s key.1 key.2⟩

/-- C9 witness: a failed pull (generic remote error) leaves a concrete
state's timestamps and eligibility untouched. -/
theorem autosync_C9_witness :
    (asyncPull "/r" false true ⟨false, none, none, some (.git "network down"), true, 99⟩
      ⟨[], [("/r", 50)], [("/r", "50")], []⟩).1.lastPullTimes = [("/r", 50)] ∧
    (asyncPull "/r" false true ⟨false, none, none, some (.git "network down"), true, 99⟩
      ⟨[], [("/r", 50)], [("/r", "50")], []⟩).1.sidecarFiles = [("/r", "50")] ∧
    (shouldPull "/r" 100 60
      (asyncPull "/r" false true ⟨false, none, none, some (.git "network down"), true, 99⟩
        ⟨[], [("/r", 50)], [("/r", "50")], []⟩).1).1 =
      (shouldPull "/r" 100 60 ⟨[], [("/r", 50)], [("/r", "50")], []⟩).1 :=
  autosync_C9 "/r" false true ⟨false, none, none, some (.git "network down"), true, 99⟩
    ⟨[], [("/r", 50)], [("/r", "50")], []⟩ 100 60 (Or.inr (by simp))

/-- C10: with silent mode active the producer-side emission path drops
every message — error notifications from pull and push failures
included — before it reaches the queue: `_echo_message` is the
identity on the queue, a silent pull adds at most the (non-user-facing)
deferred-reload marker, and a silent commit-and-push adds nothing, for
every backend outcome. -/
theorem pullExcQueue_silent (repoDir : String) (e : Exc) (q : List Msg) :
    pullExcQueue true repoDir e q = q := by
  cases e with
  | git m =>
    rcases h : classifyPull m with _ | _ | _ <;> simp [pullExcQueue, h, echoMessage]
  | other m => simp [pullExcQueue, echoMessage]

theorem pushExcQueue_silent (relFilepath : String) (e : Exc) (q : List Msg) :
    pushExcQueue true relFilepath e q = q := by
  cases e <;> simp [pushExcQueue, echoMessage]

theorem autosync_C10 (message dir rel tmpl : String) (err ac : Bool) (q : List Msg)
    (env : PullEnv) (penv : PushEnv) (s : SyncState) :
    (echoMessage true message err q = q) ∧
    ((asyncPull dir true ac env s).1.queue = s.queue ∨
      (asyncPull dir true ac env s).1.queue = s.queue ++ [("SCHEDULE_RELOAD", false)]) ∧
    ((asyncCommitAndPush dir rel tmpl true penv s).1.queue = s.queue) := by
  refine ⟨by simp [echoMessage], ?_, ?_⟩
  · by_cases hk : "pull:" ++ dir ∈ s.active
    · simp [asyncPull, hk]
    · obtain ⟨d, se, ce, pe, w, n⟩ := env
      cases d <;> cases ac <;> cases se <;> cases ce <;> cases pe <;> cases w <;>
        simp [asyncPull, hk, pullBody, doPullStep, updateLastPullTime, pullExcQueue_silent,
          echoMessage]
  · by_cases hk : "push:" ++ dir ++ ":" ++ rel ∈ s.active
    · simp [asyncCommitAndPush, hk]
    · obtain ⟨st, ae, ce, pe⟩ := penv
      cases st <;> cases ae <;> cases ce <;> cases pe <;>
        simp [asyncCommitAndPush, hk, pushBody, isDirtyPath, pushExcQueue_silent, echoMessage]

end Autosync
